import Mathlib

set_option maxHeartbeats 1000000

/-! Shallow embedding of the two tools of the FPGA Gaussian-blur repository:
`src/bmp_to_hex.c` (24-bit BMP decoding, bilinear resize to 320x240, RGB565
packing, hex-stream output) and `src/convert.c` (resilient RGB565 hex-stream
decoding back to 8-bit RGB). Machine integers are modelled as `Nat` with an
explicit `% 2 ^ w` wherever a C cast truncates. -/

/-- WIDTH constant of convert.c. -/
def WIDTH : Nat := 320

/-- HEIGHT constant of convert.c. -/
def HEIGHT : Nat := 240

/-- TOTAL_PIXELS constant of convert.c. -/
def TOTAL_PIXELS : Nat := WIDTH * HEIGHT

/-- OUT_WIDTH constant of bmp_to_hex.c. -/
def OUT_WIDTH : Nat := 320

/-- OUT_HEIGHT constant of bmp_to_hex.c. -/
def OUT_HEIGHT : Nat := 240

/-- C-locale isspace over characters, as used by `isspace((unsigned char)*line)`
in parse_rgb565_line: space, tab, line feed, vertical tab, form feed,
carriage return. -/
def c_isspace (c : Char) : Bool :=
  c == ' ' || c == '\t' || c == '\n' || c == '\x0B' || c == '\x0C' || c == '\r'

/-- C-locale isxdigit: an ASCII decimal digit or a letter a-f or A-F. -/
def c_isxdigit (c : Char) : Bool :=
  (decide (48 ≤ c.toNat) && decide (c.toNat ≤ 57)) ||
    (decide (97 ≤ c.toNat) && decide (c.toNat ≤ 102)) ||
    (decide (65 ≤ c.toNat) && decide (c.toNat ≤ 70))

/-- Numeric value of one hexadecimal digit character, the digit-value step of
`strtoul(buf, NULL, 16)`. -/
def hexDigitVal (c : Char) : Nat :=
  if 48 ≤ c.toNat ∧ c.toNat ≤ 57 then c.toNat - 48
  else if 97 ≤ c.toNat ∧ c.toNat ≤ 102 then c.toNat - 87
  else if 65 ≤ c.toNat ∧ c.toNat ≤ 70 then c.toNat - 55
  else 0

/-- Base-16 accumulation of `strtoul(buf, NULL, 16)` on a buffer that the
caller has already checked to consist of hex digits only. -/
def parseHexNat (cs : List Char) : Nat :=
  cs.foldl (fun a c => 16 * a + hexDigitVal c) 0

/-- The comment test of parse_rgb565_line: `line[0] == '/' && line[1] == '/'`
on the whitespace-stripped line (a missing character reads as the NUL
terminator, which is not a slash). -/
def begins_comment (l : List Char) : Bool :=
  l.head? == some '/' && l.tail.head? == some '/'

/-- parse_rgb565_line of convert.c (lines 11-45): skip leading whitespace;
return no value for comment lines; copy characters into a 64-byte buffer
stopping at NUL, CR, LF or 63 characters; return no value if the buffer is
empty, contains an 'x' or 'X', contains a non-hex-digit, or is longer than 4;
otherwise the value is strtoul base 16 cast to uint16_t. -/
def parse_rgb565_line (line : List Char) : Option Nat :=
  let l := line.dropWhile c_isspace
  if begins_comment l then none
  else
    let buf := (l.takeWhile fun c => !(c == '\r' || c == '\n')).take 63
    if buf.length = 0 then none
    else if buf.any fun c => c == 'x' || c == 'X' then none
    else if !buf.all c_isxdigit then none
    else if 4 < buf.length then none
    else some (parseHexNat buf % 65536)

/-- Spec-side line parser, following the wording of the C2 claim: after
stripping leading whitespace the line must not begin with two slashes; after
truncating at the first CR or LF or at the fixed maximum buffer length the
content must be non-empty, contain no 'x' or 'X', have length at most 4 and
consist of hex digits; then the value is the content read in base 16 masked
to 16 bits. -/
def parse_line_spec (line : List Char) : Option Nat :=
  let l := line.dropWhile c_isspace
  let content := (l.takeWhile fun c => !(c == '\r' || c == '\n')).take 63
  if ¬ begins_comment l ∧ content ≠ [] ∧
      (content.all fun c => !(c == 'x' || c == 'X')) ∧
      content.length ≤ 4 ∧ content.all c_isxdigit
  then some (parseHexNat content % 65536) else none

/-- The read loop of convert.c main (lines 70-91) followed by the fill loop
(lines 94-110), at the level of packed RGB565 values: while fewer than
`remaining` values have been emitted and lines remain, parse each line,
skipping invalid ones; a valid line emits its packed value and becomes the
new last_valid; once the input is exhausted every remaining slot is filled
with last_valid. -/
def decodeStream : List (List Char) → Nat → Nat → List Nat
  | _, 0, _ => []
  | [], r + 1, lastValid => List.replicate (r + 1) lastValid
  | line :: rest, r + 1, lastValid =>
    match parse_rgb565_line line with
    | none => decodeStream rest (r + 1) lastValid
    | some v => v :: decodeStream rest r v

/-- The full decoding stage of convert.c main: TOTAL_PIXELS output slots and
an all-zero initial state (`uint16_t last_valid = 0`). -/
def hexDecoderOutput (lines : List (List Char)) : List Nat :=
  decodeStream lines TOTAL_PIXELS 0

/-- The Pixel struct of bmp_to_hex.c: three 8-bit channels. -/
structure Pixel where
  r : Nat
  g : Nat
  b : Nat
deriving DecidableEq

/-- Decoding one BMP pixel row (bmp_to_hex.c lines 165-170): BMP channel
order is B,G,R, so byte col*3+2 is red, col*3+1 is green, col*3+0 is blue.
`row_buf` maps a byte offset inside the padded row buffer to its value. -/
def decodeRow (srcW : Nat) (row_buf : Nat → Nat) : List Pixel :=
  (List.range srcW).map fun col =>
    ⟨row_buf (col * 3 + 2), row_buf (col * 3 + 1), row_buf (col * 3 + 0)⟩

/-- One row store `src_pixels[dst_row * src_w + col] = ...`, with the flat
buffer modelled as a map from row index to that row's pixels. -/
def storeRow (buf : Nat → List Pixel) (d : Nat) (row : List Pixel) :
    Nat → List Pixel :=
  fun i => if i = d then row else buf i

/-- bmp_to_hex.c line 163: `dst_row = top_down ? row : (src_h - 1 - row)`. -/
def dst_row (topDown : Bool) (srcH row : Nat) : Nat :=
  if topDown then row else srcH - 1 - row

/-- The row-reading loop of bmp_to_hex.c main (lines 159-171): for each file
row in read order, compute its dst_row and store the BGR-to-RGB decoded row
there. -/
def bmp_read_rows (topDown : Bool) (srcW srcH : Nat) (rows : List (Nat → Nat)) :
    Nat → List Pixel :=
  (List.range srcH).foldl
    (fun buf row =>
      storeRow buf (dst_row topDown srcH row)
        (decodeRow srcW (rows.getD row fun _ => 0)))
    fun _ => []

/-- The BMPInfoHeader fields that the decoding logic reads. -/
structure BMPInfoHeader where
  biWidth : Int
  biHeight : Int
  biBitCount : Nat
  biCompression : Nat

/-- bmp_to_hex.c line 142: negative height signals top-down storage. -/
def top_down (ih : BMPInfoHeader) : Bool := decide (ih.biHeight < 0)

/-- bmp_to_hex.c line 140: `src_w = abs(ih.biWidth)`. -/
def src_w (ih : BMPInfoHeader) : Nat := ih.biWidth.natAbs

/-- bmp_to_hex.c line 141: `src_h = abs(ih.biHeight)`. -/
def src_h (ih : BMPInfoHeader) : Nat := ih.biHeight.natAbs

/-- The acceptance checks of bmp_to_hex.c main (lines 123-138): "BM"
signature, 24 bits per pixel, no compression. -/
def bmp_accepted (bfType : Nat) (ih : BMPInfoHeader) : Prop :=
  bfType = 0x4D42 ∧ ih.biBitCount = 24 ∧ ih.biCompression = 0

/-- to_rgb565 of bmp_to_hex.c (lines 47-52): take the top bits of each 8-bit
channel, mask, and pack as [15:11]=R, [10:5]=G, [4:0]=B; the final cast to
uint16_t is the `% 65536`. -/
def to_rgb565 (r g b : Nat) : Nat :=
  (((r >>> 3) &&& 0x1F) <<< 11 ||| ((g >>> 2) &&& 0x3F) <<< 5 |||
    ((b >>> 3) &&& 0x1F)) % 65536

/-- The RGB565-to-RGB888 expansion of convert.c main (lines 78-84 and
97-103): extract the three fields, expand each by `field * 255 / max`, and
store into a uint8_t (the `% 256`). -/
def rgb565_to_rgb888 (p : Nat) : Nat × Nat × Nat :=
  ((((p >>> 11) &&& 0x1F) * 255 / 31) % 256,
   (((p >>> 5) &&& 0x3F) * 255 / 63) % 256,
   ((p &&& 0x1F) * 255 / 31) % 256)

/-- The resize-or-passthrough stage of bmp_to_hex.c main (lines 178-193):
when the source is already 320x240 the source buffer is passed through
unchanged; otherwise resize_bilinear runs, whose `NULL` result is `none`.
The bilinear branch is a parameter here because its pixel arithmetic is
floating point; the C4 claim concerns only the short-circuit branch. -/
def resample_stage (resize : List Pixel → Option (List Pixel))
    (srcW srcH : Nat) (src : List Pixel) : Option (List Pixel) :=
  if srcW = OUT_WIDTH ∧ srcH = OUT_HEIGHT then some src else resize src

/-- The source-coordinate floor of resize_bilinear (bmp_to_hex.c lines 61-70):
`x0 = (int)(dst_x * ((float)src_n / dst_n))`, modelled with exact integer
arithmetic as `floor(d * src_n / dst_n)`. -/
def src_coord0 (d srcN dstN : Nat) : Nat := d * srcN / dstN

/-- The neighbour clamp of resize_bilinear (bmp_to_hex.c lines 71-72):
`x1 = x0 + 1 < src_n ? x0 + 1 : x0`. -/
def clamp_next (x0 n : Nat) : Nat := if x0 + 1 < n then x0 + 1 else x0

/-- Concrete header used to instantiate the C3 theorem: 1 pixel wide, height
field -2, 24-bit, uncompressed. -/
def ihW : BMPInfoHeader := ⟨1, -2, 24, 0⟩

/-- Concrete file rows used to instantiate the C3 theorem. -/
def rowsW : List (Nat → Nat) := [fun _ => 1, fun _ => 2]

/-- Masking with 0x1F is reduction mod 32. -/
theorem and_31_eq_mod (x : Nat) : x &&& 31 = x % 32 := by
  have h := Nat.and_pow_two_sub_one_eq_mod x 5
  norm_num at h
  exact h

/-- Masking with 0x3F is reduction mod 64. -/
theorem and_63_eq_mod (x : Nat) : x &&& 63 = x % 64 := by
  have h := Nat.and_pow_two_sub_one_eq_mod x 6
  norm_num at h
  exact h

/-- Packing three disjoint fields with shifts and ors is plain addition. -/
theorem pack565_eq_add (a b c : Nat) (hb : b < 64) (hc : c < 32) :
    a <<< 11 ||| b <<< 5 ||| c = a * 2048 + b * 32 + c := by
  have h1 : b <<< 5 = b * 32 := by rw [Nat.shiftLeft_eq]
  have h2 : a <<< 11 = 2 ^ 11 * a := by rw [Nat.shiftLeft_eq]; ring
  have hlt : b * 32 < 2 ^ 11 := by omega
  have hc5 : c < 2 ^ 5 := by omega
  calc a <<< 11 ||| b <<< 5 ||| c
      = (2 ^ 11 * a + b * 32) ||| c := by
        rw [h1, h2, ← Nat.mul_add_lt_is_or hlt a]
    _ = 2 ^ 5 * (a * 64 + b) ||| c := by
        rw [show (2 : Nat) ^ 11 * a + b * 32 = 2 ^ 5 * (a * 64 + b) by ring]
    _ = 2 ^ 5 * (a * 64 + b) + c := (Nat.mul_add_lt_is_or hc5 (a * 64 + b)).symm
    _ = a * 2048 + b * 32 + c := by ring

/-- Field extraction from a packed 5:6:5 sum. -/
theorem pack565_extract (a b c : Nat) (ha : a < 32) (hb : b < 64) (hc : c < 32) :
    (a * 2048 + b * 32 + c) >>> 11 &&& 0x1F = a ∧
    (a * 2048 + b * 32 + c) >>> 5 &&& 0x3F = b ∧
    (a * 2048 + b * 32 + c) &&& 0x1F = c := by
  refine ⟨?_, ?_, ?_⟩
  · rw [Nat.shiftRight_eq_div_pow, and_31_eq_mod]; norm_num; omega
  · rw [Nat.shiftRight_eq_div_pow, and_63_eq_mod]; norm_num; omega
  · rw [and_31_eq_mod]; omega

/-- The three RGB565 fields are bounded by their field maxima. -/
theorem decode_fields_le (p : Nat) :
    (p >>> 11) &&& 0x1F ≤ 31 ∧ (p >>> 5) &&& 0x3F ≤ 63 ∧ p &&& 0x1F ≤ 31 := by
  refine ⟨?_, ?_, ?_⟩
  · rw [and_31_eq_mod]; omega
  · rw [and_63_eq_mod]; omega
  · rw [and_31_eq_mod]; omega

/-- C4: when the source buffer is already 320x240 the resample stage passes
it through unchanged and cannot fail. -/
theorem resample_stage_noop (resize : List Pixel → Option (List Pixel))
    (srcW srcH : Nat) (src : List Pixel)
    (hw : srcW = OUT_WIDTH) (hh : srcH = OUT_HEIGHT) :
    resample_stage resize srcW srcH src = some src := by
  subst hw; subst hh
  simp [resample_stage]

/-- Witness for resample_stage_noop at the empty buffer. -/
theorem resample_stage_noop_witness :
    OUT_WIDTH = OUT_WIDTH ∧ OUT_HEIGHT = OUT_HEIGHT ∧
    resample_stage (fun _ => none) OUT_WIDTH OUT_HEIGHT [] = some [] :=
  ⟨rfl, rfl, resample_stage_noop (fun _ => none) OUT_WIDTH OUT_HEIGHT [] rfl rfl⟩

/-- C5: for every destination pixel of a resize with positive source and
destination dimensions, the clamped neighbour indices equal
min(x0 + 1, src_w - 1) and min(y0 + 1, src_h - 1), and all four sampled
source coordinates are strictly inside the source bounds. -/
theorem resize_neighbors_in_bounds (srcW srcH dstW dstH dx dy : Nat)
    (hsw : 0 < srcW) (hsh : 0 < srcH) (hdx : dx < dstW) (hdy : dy < dstH) :
    clamp_next (src_coord0 dx srcW dstW) srcW =
      min (src_coord0 dx srcW dstW + 1) (srcW - 1) ∧
    clamp_next (src_coord0 dy srcH dstH) srcH =
      min (src_coord0 dy srcH dstH + 1) (srcH - 1) ∧
    src_coord0 dx srcW dstW < srcW ∧ src_coord0 dy srcH dstH < srcH ∧
    clamp_next (src_coord0 dx srcW dstW) srcW < srcW ∧
    clamp_next (src_coord0 dy srcH dstH) srcH < srcH := by
  have hdw : 0 < dstW := Nat.lt_of_le_of_lt (Nat.zero_le dx) hdx
  have hdh : 0 < dstH := Nat.lt_of_le_of_lt (Nat.zero_le dy) hdy
  have hx : src_coord0 dx srcW dstW < srcW := by
    unfold src_coord0
    rw [Nat.div_lt_iff_lt_mul hdw]
    calc dx * srcW < dstW * srcW := by
          exact Nat.mul_lt_mul_of_lt_of_le hdx (Nat.le_refl srcW) hsw
      _ = srcW * dstW := Nat.mul_comm _ _
  have hy : src_coord0 dy srcH dstH < srcH := by
    unfold src_coord0
    rw [Nat.div_lt_iff_lt_mul hdh]
    calc dy * srcH < dstH * srcH := by
          exact Nat.mul_lt_mul_of_lt_of_le hdy (Nat.le_refl srcH) hsh
      _ = srcH * dstH := Nat.mul_comm _ _
  refine ⟨?_, ?_, hx, hy, ?_, ?_⟩ <;> (unfold clamp_next; split <;> omega)

/-- Witness for resize_neighbors_in_bounds at a 2x3 source and 4x5 target. -/
theorem resize_neighbors_in_bounds_witness :
    (0 < 2 ∧ 0 < 3 ∧ 3 < 4 ∧ 4 < 5) ∧
    (clamp_next (src_coord0 3 2 4) 2 = min (src_coord0 3 2 4 + 1) (2 - 1) ∧
     clamp_next (src_coord0 4 3 5) 3 = min (src_coord0 4 3 5 + 1) (3 - 1) ∧
     src_coord0 3 2 4 < 2 ∧ src_coord0 4 3 5 < 3 ∧
     clamp_next (src_coord0 3 2 4) 2 < 2 ∧ clamp_next (src_coord0 4 3 5) 3 < 3) :=
  ⟨by norm_num,
    resize_neighbors_in_bounds 2 3 4 5 3 4 (by norm_num) (by norm_num)
      (by norm_num) (by norm_num)⟩

/-- C6: for every 8-bit channel triple, to_rgb565 equals
((r >>> 3) <<< 11) ||| ((g >>> 2) <<< 5) ||| (b >>> 3): the top 5 bits of red
land in bits 15-11, the top 6 bits of green in bits 10-5 and the top 5 bits
of blue in bits 4-0, with truncation of the low-order bits only. -/
theorem to_rgb565_packing (r g b : Nat) (hr : r < 256) (hg : g < 256)
    (hb : b < 256) :
    to_rgb565 r g b = (r >>> 3) <<< 11 ||| (g >>> 2) <<< 5 ||| (b >>> 3) ∧
    to_rgb565 r g b >>> 11 &&& 0x1F = r >>> 3 ∧
    to_rgb565 r g b >>> 5 &&& 0x3F = g >>> 2 ∧
    to_rgb565 r g b &&& 0x1F = b >>> 3 := by
  have hr3 : r >>> 3 < 32 := by rw [Nat.shiftRight_eq_div_pow]; norm_num; omega
  have hg2 : g >>> 2 < 64 := by rw [Nat.shiftRight_eq_div_pow]; norm_num; omega
  have hb3 : b >>> 3 < 32 := by rw [Nat.shiftRight_eq_div_pow]; norm_num; omega
  have hmr : r >>> 3 &&& 0x1F = r >>> 3 := by
    rw [and_31_eq_mod]; exact Nat.mod_eq_of_lt hr3
  have hmg : g >>> 2 &&& 0x3F = g >>> 2 := by
    rw [and_63_eq_mod]; exact Nat.mod_eq_of_lt hg2
  have hmb : b >>> 3 &&& 0x1F = b >>> 3 := by
    rw [and_31_eq_mod]; exact Nat.mod_eq_of_lt hb3
  have hpack := pack565_eq_add (r >>> 3) (g >>> 2) (b >>> 3) hg2 hb3
  have hlt : (r >>> 3) * 2048 + (g >>> 2) * 32 + (b >>> 3) < 65536 := by omega
  have hval : to_rgb565 r g b = (r >>> 3) * 2048 + (g >>> 2) * 32 + (b >>> 3) := by
    unfold to_rgb565
    rw [hmr, hmg, hmb, hpack, Nat.mod_eq_of_lt hlt]
  have hext := pack565_extract (r >>> 3) (g >>> 2) (b >>> 3) hr3 hg2 hb3
  refine ⟨hval.trans hpack.symm, ?_, ?_, ?_⟩
  · rw [hval]; exact hext.1
  · rw [hval]; exact hext.2.1
  · rw [hval]; exact hext.2.2

/-- Witness for to_rgb565_packing at (255, 128, 7). -/
theorem to_rgb565_packing_witness :
    ((255 : Nat) < 256 ∧ (128 : Nat) < 256 ∧ (7 : Nat) < 256) ∧
    (to_rgb565 255 128 7 =
        (255 >>> 3) <<< 11 ||| (128 >>> 2) <<< 5 ||| (7 >>> 3) ∧
      to_rgb565 255 128 7 >>> 11 &&& 0x1F = 255 >>> 3 ∧
      to_rgb565 255 128 7 >>> 5 &&& 0x3F = 128 >>> 2 ∧
      to_rgb565 255 128 7 &&& 0x1F = 7 >>> 3) :=
  ⟨by norm_num,
    to_rgb565_packing 255 128 7 (by norm_num) (by norm_num) (by norm_num)⟩

/-- C7: the RGB565-to-RGB888 expansion is total over the 16-bit range and
computes exactly floor(field * 255 / max_field_value) per channel, with
integer truncating division. -/
theorem rgb565_decode_formula (p : Nat) (hp : p < 65536) :
    rgb565_to_rgb888 p =
      (((p >>> 11) &&& 0x1F) * 255 / 31, ((p >>> 5) &&& 0x3F) * 255 / 63,
        (p &&& 0x1F) * 255 / 31) := by
  obtain ⟨h1, h2, h3⟩ := decode_fields_le p
  unfold rgb565_to_rgb888
  rw [Nat.mod_eq_of_lt (show ((p >>> 11) &&& 0x1F) * 255 / 31 < 256 by omega),
    Nat.mod_eq_of_lt (show ((p >>> 5) &&& 0x3F) * 255 / 63 < 256 by omega),
    Nat.mod_eq_of_lt (show (p &&& 0x1F) * 255 / 31 < 256 by omega)]

/-- Witness for rgb565_decode_formula at 0xF800 (pure red). -/
theorem rgb565_decode_formula_witness :
    (0xF800 : Nat) < 65536 ∧ rgb565_to_rgb888 0xF800 = (255, 0, 0) :=
  ⟨by norm_num, (rgb565_decode_formula 0xF800 (by norm_num)).trans (by decide)⟩

/-- C8: decode after encode is exact at the bucket boundaries: white and
black round-trip exactly per channel, while the codec is not an exact
inverse in general. -/
theorem roundtrip_bucket_boundaries :
    rgb565_to_rgb888 (to_rgb565 255 255 255) = (255, 255, 255) ∧
    rgb565_to_rgb888 (to_rgb565 0 0 0) = (0, 0, 0) ∧
    rgb565_to_rgb888 (to_rgb565 1 1 1) ≠ (1, 1, 1) := by decide

/-- C9: each expanded channel field * 255 / max is at most 255 for every
packed input, so the narrowing store into a uint8_t never wraps: the decode
with the cast equals the decode without it. -/
theorem rgb565_decode_no_wrap (p : Nat) :
    ((p >>> 11) &&& 0x1F) * 255 / 31 ≤ 255 ∧
    ((p >>> 5) &&& 0x3F) * 255 / 63 ≤ 255 ∧
    (p &&& 0x1F) * 255 / 31 ≤ 255 ∧
    rgb565_to_rgb888 p =
      (((p >>> 11) &&& 0x1F) * 255 / 31, ((p >>> 5) &&& 0x3F) * 255 / 63,
        (p &&& 0x1F) * 255 / 31) := by
  obtain ⟨h1, h2, h3⟩ := decode_fields_le p
  refine ⟨by omega, by omega, by omega, ?_⟩
  unfold rgb565_to_rgb888
  rw [Nat.mod_eq_of_lt (show ((p >>> 11) &&& 0x1F) * 255 / 31 < 256 by omega),
    Nat.mod_eq_of_lt (show ((p >>> 5) &&& 0x3F) * 255 / 63 < 256 by omega),
    Nat.mod_eq_of_lt (show (p &&& 0x1F) * 255 / 31 < 256 by omega)]

/-- C10: to_rgb565 depends only on the top 5, 6 and 5 bits of the channels,
and the masks applied after the shifts never change the shifted values for
8-bit inputs. -/
theorem to_rgb565_top_bits_only (r g b r' g' b' : Nat)
    (hr : r < 256) (hg : g < 256) (hb : b < 256)
    (hr' : r' < 256) (hg' : g' < 256) (hb' : b' < 256)
    (h1 : r >>> 3 = r' >>> 3) (h2 : g >>> 2 = g' >>> 2)
    (h3 : b >>> 3 = b' >>> 3) :
    to_rgb565 r g b = to_rgb565 r' g' b' ∧
    r >>> 3 &&& 0x1F = r >>> 3 ∧ g >>> 2 &&& 0x3F = g >>> 2 ∧
    b >>> 3 &&& 0x1F = b >>> 3 := by
  have hr3 : r >>> 3 < 32 := by rw [Nat.shiftRight_eq_div_pow]; norm_num; omega
  have hg2 : g >>> 2 < 64 := by rw [Nat.shiftRight_eq_div_pow]; norm_num; omega
  have hb3 : b >>> 3 < 32 := by rw [Nat.shiftRight_eq_div_pow]; norm_num; omega
  refine ⟨?_, ?_, ?_, ?_⟩
  · unfold to_rgb565; rw [h1, h2, h3]
  · rw [and_31_eq_mod]; exact Nat.mod_eq_of_lt hr3
  · rw [and_63_eq_mod]; exact Nat.mod_eq_of_lt hg2
  · rw [and_31_eq_mod]; exact Nat.mod_eq_of_lt hb3

/-- Witness for to_rgb565_top_bits_only at (0,0,0) and (7,3,7). -/
theorem to_rgb565_top_bits_only_witness :
    ((0 : Nat) >>> 3 = (7 : Nat) >>> 3 ∧ (0 : Nat) >>> 2 = (3 : Nat) >>> 2) ∧
    (to_rgb565 0 0 0 = to_rgb565 7 3 7 ∧
      (0 : Nat) >>> 3 &&& 0x1F = (0 : Nat) >>> 3 ∧
      (0 : Nat) >>> 2 &&& 0x3F = (0 : Nat) >>> 2 ∧
      (0 : Nat) >>> 3 &&& 0x1F = (0 : Nat) >>> 3) :=
  ⟨⟨by decide, by decide⟩,
    to_rgb565_top_bits_only 0 0 0 7 3 7 (by norm_num) (by norm_num)
      (by norm_num) (by norm_num) (by norm_num) (by norm_num)
      (by decide) (by decide) (by decide)⟩

/-- Unrolling the read and fill loops: whenever the valid lines fall short of
the quota, the emitted values are the parsed values followed by copies of the
last valid value (the initial state when none was ever valid). -/
theorem decodeStream_eq (lines : List (List Char)) :
    ∀ (remaining lastValid : Nat),
      (lines.filterMap parse_rgb565_line).length ≤ remaining →
      decodeStream lines remaining lastValid =
        lines.filterMap parse_rgb565_line ++
          List.replicate
            (remaining - (lines.filterMap parse_rgb565_line).length)
            ((lines.filterMap parse_rgb565_line).getLastD lastValid) := by
  induction lines with
  | nil =>
    intro remaining lastValid _
    cases remaining with
    | zero => simp [decodeStream]
    | succ r => simp [decodeStream]
  | cons line rest ih =>
    intro remaining lastValid h
    cases remaining with
    | zero =>
      have hnil : (line :: rest).filterMap parse_rgb565_line = [] :=
        List.length_eq_zero.mp (Nat.le_zero.mp h)
      simp [decodeStream, hnil]
    | succ r =>
      cases hp : parse_rgb565_line line with
      | none =>
        have hfm : (line :: rest).filterMap parse_rgb565_line =
            rest.filterMap parse_rgb565_line := by
          simp [List.filterMap_cons, hp]
        have hstep : decodeStream (line :: rest) (r + 1) lastValid =
            decodeStream rest (r + 1) lastValid := by
          simp [decodeStream, hp]
        rw [hstep, hfm]
        exact ih (r + 1) lastValid (by rw [hfm] at h; exact h)
      | some v =>
        have hfm : (line :: rest).filterMap parse_rgb565_line =
            v :: rest.filterMap parse_rgb565_line := by
          simp [List.filterMap_cons, hp]
        have hstep : decodeStream (line :: rest) (r + 1) lastValid =
            v :: decodeStream rest r v := by
          simp [decodeStream, hp]
        rw [hstep, hfm]
        have h' : (rest.filterMap parse_rgb565_line).length ≤ r := by
          rw [hfm] at h; simpa using h
        rw [ih r v h', List.cons_append, List.length_cons, List.getLastD_cons,
          Nat.add_sub_add_right]

/-- C1: when the stream holds K < TOTAL_PIXELS valid data lines, the decoder
output has exactly TOTAL_PIXELS packed values: the K parsed values in stream
order followed by copies of the last parsed value (0 when K = 0). -/
theorem hexDecoder_shortfall (lines : List (List Char))
    (h : (lines.filterMap parse_rgb565_line).length < TOTAL_PIXELS) :
    hexDecoderOutput lines =
      lines.filterMap parse_rgb565_line ++
        List.replicate
          (TOTAL_PIXELS - (lines.filterMap parse_rgb565_line).length)
          ((lines.filterMap parse_rgb565_line).getLastD 0) ∧
    (hexDecoderOutput lines).length = TOTAL_PIXELS := by
  have he := decodeStream_eq lines TOTAL_PIXELS 0 (Nat.le_of_lt h)
  constructor
  · unfold hexDecoderOutput
    exact he
  · unfold hexDecoderOutput
    rw [he]
    simp only [List.length_append, List.length_replicate]
    omega

/-- Witness for hexDecoder_shortfall at the one-line stream "1". -/
theorem hexDecoder_shortfall_witness :
    (([['1']] : List (List Char)).filterMap parse_rgb565_line).length <
      TOTAL_PIXELS ∧
    hexDecoderOutput [['1']] = [1] ++ List.replicate (TOTAL_PIXELS - 1) 1 ∧
    (hexDecoderOutput [['1']]).length = TOTAL_PIXELS := by
  have hfm : ([['1']] : List (List Char)).filterMap parse_rgb565_line = [1] := by
    decide
  have h : (([['1']] : List (List Char)).filterMap parse_rgb565_line).length <
      TOTAL_PIXELS := by
    rw [hfm]
    norm_num [TOTAL_PIXELS, WIDTH, HEIGHT]
  obtain ⟨h1, h2⟩ := hexDecoder_shortfall [['1']] h
  rw [hfm] at h1
  refine ⟨h, ?_, h2⟩
  simpa using h1

/-- After the write loop, reading the buffer back at the index written by an
injective destination-row map returns the row stored there. -/
theorem foldl_storeRow_apply (f : Nat → Nat) (g : Nat → List Pixel)
    (init : Nat → List Pixel) :
    ∀ (n r : Nat), r < n → (∀ i j, i < n → j < n → f i = f j → i = j) →
      (List.range n).foldl (fun buf row => storeRow buf (f row) (g row)) init
        (f r) = g r := by
  intro n
  induction n with
  | zero => intro r hr _; exact absurd hr (Nat.not_lt_zero r)
  | succ m ih =>
    intro r hr hinj
    rw [List.range_succ, List.foldl_append, List.foldl_cons, List.foldl_nil]
    by_cases hrm : r = m
    · subst hrm
      simp [storeRow]
    · have hne : f r ≠ f m := fun hfe => hrm (hinj r m (by omega) (by omega) hfe)
      have hskip : storeRow
          ((List.range m).foldl (fun buf row => storeRow buf (f row) (g row))
            init) (f m) (g m) (f r) =
          (List.range m).foldl (fun buf row => storeRow buf (f row) (g row))
            init (f r) := by
        simp [storeRow, hne]
      rw [hskip]
      exact ih r (by omega) fun i j hi hj => hinj i j (by omega) (by omega)

/-- C3: for every accepted 24-bit bitmap, a negative height field stores file
rows in file order (canonical row d is file row d, so row 0 is the first row
read), a positive height field reverses them (canonical row d is file row
src_h - 1 - d, so row 0 is the last row read), and within each pixel the
stored B,G,R byte order is reordered to R,G,B. -/
theorem bmp_row_order (bfType : Nat) (ih : BMPInfoHeader)
    (rows : List (Nat → Nat)) (d : Nat)
    (hacc : bmp_accepted bfType ih) (hd : d < src_h ih) :
    (ih.biHeight < 0 →
        bmp_read_rows (top_down ih) (src_w ih) (src_h ih) rows d =
          decodeRow (src_w ih) (rows.getD d fun _ => 0)) ∧
    (0 < ih.biHeight →
        bmp_read_rows (top_down ih) (src_w ih) (src_h ih) rows d =
          decodeRow (src_w ih) (rows.getD (src_h ih - 1 - d) fun _ => 0)) ∧
    (∀ (rb : Nat → Nat) (col : Nat), col < src_w ih →
        (decodeRow (src_w ih) rb).getD col ⟨0, 0, 0⟩ =
          ⟨rb (col * 3 + 2), rb (col * 3 + 1), rb (col * 3 + 0)⟩) := by
  refine ⟨?_, ?_, ?_⟩
  · intro hneg
    have ht : top_down ih = true := by simp [top_down, hneg]
    have hfd : dst_row (top_down ih) (src_h ih) d = d := by simp [dst_row, ht]
    have happ := foldl_storeRow_apply (dst_row (top_down ih) (src_h ih))
      (fun row => decodeRow (src_w ih) (rows.getD row fun _ => 0))
      (fun _ => []) (src_h ih) d hd
      (by intro i j hi hj hfe; simpa [dst_row, ht] using hfe)
    rw [hfd] at happ
    unfold bmp_read_rows
    exact happ
  · intro hpos
    have ht : top_down ih = false := by
      simp only [top_down, decide_eq_false_iff_not]
      omega
    have hfd : dst_row (top_down ih) (src_h ih) (src_h ih - 1 - d) = d := by
      simp [dst_row, ht]
      omega
    have happ := foldl_storeRow_apply (dst_row (top_down ih) (src_h ih))
      (fun row => decodeRow (src_w ih) (rows.getD row fun _ => 0))
      (fun _ => []) (src_h ih) (src_h ih - 1 - d) (by omega)
      (by intro i j hi hj hfe; simp [dst_row, ht] at hfe; omega)
    rw [hfd] at happ
    unfold bmp_read_rows
    exact happ
  · intro rb col hcol
    simp [decodeRow, List.getD_eq_getElem?_getD, List.getElem?_map,
      List.getElem?_range, hcol]

/-- Witness for bmp_row_order at a 1x2 top-down header. -/
theorem bmp_row_order_witness :
    bmp_accepted 0x4D42 ihW ∧ 0 < src_h ihW ∧ ihW.biHeight < 0 ∧
    bmp_read_rows (top_down ihW) (src_w ihW) (src_h ihW) rowsW 0 =
      decodeRow (src_w ihW) (rowsW.getD 0 fun _ => 0) := by
  have hacc : bmp_accepted 0x4D42 ihW := ⟨rfl, rfl, rfl⟩
  have hd : 0 < src_h ihW := by decide
  have hneg : ihW.biHeight < 0 := by decide
  exact ⟨hacc, hd, hneg, (bmp_row_order 0x4D42 ihW rowsW 0 hacc hd).1 hneg⟩

/-- C2: the line parser yields a value exactly under the claim's conditions
(after whitespace stripping no leading "//"; after truncation at CR/LF or the
maximum buffer length the content is non-empty, x-free, at most 4 characters
and all hex digits), and then the value is the content read in base 16 masked
to 16 bits; in particular "FFFF" gives 0xFFFF, "1" gives 1, and comment,
placeholder, bad-digit and empty lines give no value. -/
theorem parse_line_correct :
    (∀ line : List Char, parse_rgb565_line line = parse_line_spec line) ∧
    parse_rgb565_line ['F', 'F', 'F', 'F', '\n'] = some 0xFFFF ∧
    parse_rgb565_line ['1', '\n'] = some 0x0001 ∧
    parse_rgb565_line ['/', '/', 'c', 'o', 'm', 'm', 'e', 'n', 't', '\n'] =
      none ∧
    parse_rgb565_line ['x', 'x', 'x', 'x', '\n'] = none ∧
    parse_rgb565_line ['1', '2', 'G', '4', '\n'] = none ∧
    parse_rgb565_line ['\n'] = none := by
  refine ⟨?_, by decide, by decide, by decide, by decide, by decide, by decide⟩
  intro line
  simp only [parse_rgb565_line, parse_line_spec]
  generalize (line.dropWhile c_isspace) = l
  generalize ((l.takeWhile fun c => !(c == '\r' || c == '\n')).take 63) = buf
  by_cases h1 : begins_comment l = true
  · simp [h1]
  · by_cases h2 : buf = []
    · subst h2; simp [h1]
    · by_cases h3 : ∃ x ∈ buf, x = 'x' ∨ x = 'X'
      · obtain ⟨c, hc, hpc⟩ := h3
        have h3' : ∃ x ∈ buf, x = 'x' ∨ x = 'X' := ⟨c, hc, hpc⟩
        have hnall : ¬((∀ x ∈ buf, ¬x = 'x' ∧ ¬x = 'X') ∧ buf.length ≤ 4 ∧
            ∀ x ∈ buf, c_isxdigit x = true) := by
          rintro ⟨hall2, -, -⟩
          rcases hpc with h | h
          · exact (hall2 c hc).1 h
          · exact (hall2 c hc).2 h
        simp [h1, h2, h3', hnall]
      · by_cases h4 : ∀ x ∈ buf, c_isxdigit x = true
        · by_cases h5 : 4 < buf.length
          · have hnall : ¬((∀ x ∈ buf, ¬x = 'x' ∧ ¬x = 'X') ∧ buf.length ≤ 4 ∧
                ∀ x ∈ buf, c_isxdigit x = true) := by
              rintro ⟨-, hlen, -⟩; omega
            have hnex : ¬ ∃ x ∈ buf, c_isxdigit x = false := by
              rintro ⟨x, hx1, hx2⟩
              have := h4 x hx1
              simp_all
            simp [h1, h2, h3, hnex, h5, hnall]
          · have hax : ∀ x ∈ buf, ¬x = 'x' ∧ ¬x = 'X' := by
              push_neg at h3
              exact h3
            have hnex : ¬ ∃ x ∈ buf, c_isxdigit x = false := by
              rintro ⟨x, hx1, hx2⟩
              have := h4 x hx1
              simp_all
            have hlen : buf.length ≤ 4 := by omega
            simp [h1, h2, h3, hnex, h5, hax, h4, hlen]
            exact ⟨hax, h4⟩
        · have hex : ∃ x ∈ buf, c_isxdigit x = false := by
            simpa [Bool.not_eq_true] using h4
          have hnall : ¬((∀ x ∈ buf, ¬x = 'x' ∧ ¬x = 'X') ∧ buf.length ≤ 4 ∧
              ∀ x ∈ buf, c_isxdigit x = true) := by
            rintro ⟨-, -, hall3⟩; exact h4 hall3
          simp [h1, h2, h3, hex, hnall]
